import Mathlib

/-!
Vote-to-timeout bot: embedding of `main.go` and verification of its vote sessions.

The Go program keeps two package-level maps, `voiceStates` (user id ↦ voice state)
and `voteSessions` (channel id ↦ pointer to a `VoteSession`), and four pieces of
code touch them: `voiceStateUpdate`, `startVote`, `addVote` and the goroutine
`handleVoteCompletion`.  This file embeds them as pure functions over an explicit
`State`.

Modelling choices:

* A Go `map[string]T` is an association list (`GoMap T`); `m[k]` is `mapGet`,
  `m[k] = v` is `mapSet` (drops any older entry for `k`), `delete(m, k)` is
  `mapDelete`.  Iteration order is unspecified in Go and irrelevant here.
* `*VoteSession` pointers are addresses into `State.heap`; `voteSessions` stores
  addresses, and each sleeping `handleVoteCompletion` goroutine is an address in
  `State.timers`.  This keeps the aliasing of the source: a vote cast through the
  map is seen by the goroutine that holds the same pointer.
* Each handler is one atomic step (the source runs them in goroutines; the
  interleavings inside a handler are not modelled).
* `float64` values are the rationals they denote; every arithmetic operation is
  followed by `f64Round` (round to nearest, ties to even, 53-bit significand).
* Go `int` is `Int`; the only increment (`session.Votes++`) is bounded by the
  number of voters, so wrap-around at `2^63` is out of reach.
* Calls into the chat service are returned as data (`Reply`, `Call`); their
  outcomes are inputs (a `SendResult` and a flag for a failed timeout call).
-/

namespace Italy

/-! ## Go maps -/

/-- Go `map[string]α`, as an association list from keys to values. -/
abbrev GoMap (α : Type) := List (String × α)

/-- Map read `v, ok := m[k]`; `none` is `ok == false`. -/
def mapGet {α : Type} (m : GoMap α) (k : String) : Option α :=
  List.lookup k m

/-- Map write `m[k] = v`: any previous entry for `k` is replaced. -/
def mapSet {α : Type} (m : GoMap α) (k : String) (v : α) : GoMap α :=
  (k, v) :: m.filter (fun e => e.1 != k)

/-- Map removal `delete(m, k)`; removing an absent key changes nothing. -/
def mapDelete {α : Type} (m : GoMap α) (k : String) : GoMap α :=
  m.filter (fun e => e.1 != k)

/-- The keys of a map, in list order. -/
def mapKeys {α : Type} (m : GoMap α) : List String :=
  m.map Prod.fst

/-! ## float64 arithmetic -/

/-- Round a rational to the nearest integer, ties to the even neighbour. -/
def roundHalfEven (m : ℚ) : ℤ :=
  let f := ⌊m⌋
  let d := m - f
  if d < 1 / 2 then f
  else if 1 / 2 < d then f + 1
  else if f % 2 = 0 then f else f + 1

/-- Rounding of a real result to IEEE-754 binary64: the value is scaled so that
its significand has 53 bits (the exponent is clamped below at `-1022`, which
gives the subnormal spacing `2^-1074`), rounded half-to-even, and scaled back.
Overflow to infinity (magnitudes from `2^1024`) is not represented. -/
def f64Round (x : ℚ) : ℚ :=
  if x = 0 then 0
  else
    let e : ℤ := max (Int.log 2 |x|) (-1022) - 52
    (roundHalfEven (x / (2 : ℚ) ^ e) : ℚ) * (2 : ℚ) ^ e

/-- Go conversion `int(f)` of a float64: the fraction is discarded (truncation
towards zero). -/
def goTrunc (x : ℚ) : ℤ :=
  if 0 ≤ x then ⌊x⌋ else ⌈x⌉

/-- The package variable `VotePercentage = 75.0`. -/
def VotePercentage : ℚ := 75

/-- Line 214 of `main.go`:
`requiredVotes := int(float64(totalMembers) * VotePercentage / 100)`.
The conversion, the product and the quotient are each rounded to binary64. -/
def requiredVotes (totalMembers : ℕ) : ℤ :=
  goTrunc (f64Round (f64Round (f64Round (totalMembers : ℚ) * VotePercentage) / 100))

/-! ## Data model -/

/-- The fields of `discordgo.VoiceState` that the program reads. An empty
`ChannelID` means the user is in no voice channel. -/
structure VoiceState where
  UserID : String
  ChannelID : String
  GuildID : String
  deriving DecidableEq, Repr

/-- The fields of `discordgo.User` that the program reads. -/
structure User where
  ID : String
  Username : String
  deriving DecidableEq, Repr

/-- The struct `VoteSession`. `Voters` is a `map[string]bool` whose keys are the
users who voted. The channel `VoteComplete` is created and never used, so it is
left out. -/
structure VoteSession where
  GuildID : String
  ChannelID : String
  VotesNeeded : ℤ
  Votes : ℤ
  UserToKick : String
  Voters : GoMap Bool
  deriving DecidableEq, Repr

/-- The mutable program state: the two package-level maps, the allocated
`VoteSession` objects (a pointer is an index into `heap`), and the addresses
held by `handleVoteCompletion` goroutines that have not finished yet. -/
structure State where
  voiceStates : GoMap VoiceState
  voteSessions : GoMap ℕ
  heap : List VoteSession
  timers : List ℕ
  deriving DecidableEq, Repr

/-- The state at program start: both maps empty, nothing allocated. -/
def State.empty : State :=
  { voiceStates := [], voteSessions := [], heap := [], timers := [] }

/-- The session installed for a channel: `voteSessions[channelID]` together with
the object it points to. -/
def sessionAt (st : State) (channelID : String) : Option (ℕ × VoteSession) :=
  match mapGet st.voteSessions channelID with
  | none => none
  | some p =>
    match st.heap[p]? with
    | none => none
    | some session => some (p, session)

/-- The interaction response a command handler sends back.
* `NotInRoom`: "You need to be in a voice channel to start a vote." /
  "You need to be in a voice channel to vote."
* `InvalidTarget`: "Invalid user specified."
* `DifferentRooms`: "Both you and the target must be in the same voice channel."
* `VoteStarted name`: "Vote to kick name started. Type /vote to participate. ..."
* `NoActiveVote`: "There is no active vote in this voice channel."
* `AlreadyVoted`: "You have already voted."
* `VoteCounted`: "Your vote has been counted." -/
inductive Reply where
  | NotInRoom
  | InvalidTarget
  | DifferentRooms
  | VoteStarted (username : String)
  | NoActiveVote
  | AlreadyVoted
  | VoteCounted
  deriving DecidableEq, Repr

/-- A reply that reports a refused command. -/
def Reply.isRejection : Reply → Bool
  | .VoteStarted _ => false
  | .VoteCounted => false
  | _ => true

/-- A call made by `handleVoteCompletion` into the chat service.
`GuildMemberTimeout g u secs` stands for
`s.GuildMemberTimeout(g, u, &t)` with `t = time.Now().Add(secs * time.Second)`. -/
inductive Call where
  | ChannelMessageSend (channelID : String) (content : String)
  | GuildMemberTimeout (guildID : String) (userID : String) (seconds : ℕ)
  deriving DecidableEq, Repr

/-- The pair `(msg, err)` returned by `s.ChannelMessageSend`: `msg` is the id of
the returned `*Message`, or `none` for a nil pointer; `err` tells whether the
error is non-nil. A failed request returns `(nil, err)`. -/
structure SendResult where
  msg : Option String
  err : Bool
  deriving DecidableEq, Repr

/-- What a run of `handleVoteCompletion` did: the service calls it made, in
order, and the state it left; `final = none` means the goroutine panicked (nil
pointer dereference), which terminates the process. -/
structure Completion where
  calls : List Call
  final : Option State
  deriving DecidableEq, Repr

/-! ## The handlers -/

/-- The handler `voiceStateUpdate`: `voiceStates[vsu.UserID] = vsu.VoiceState`. -/
def voiceStateUpdate (st : State) (vsu : VoiceState) : State :=
  { st with voiceStates := mapSet st.voiceStates vsu.UserID vsu }

/-- The function `countMembersInChannel`: a loop over all of `voiceStates` that
counts the values whose `ChannelID` is the given one. -/
def countMembersInChannel (voiceStates : GoMap VoiceState) (channelID : String) : ℕ :=
  voiceStates.foldl (fun count e => if e.2.ChannelID = channelID then count + 1 else count) 0

/-- The handler `startVote`. `initiator` is `i.Member.User.ID`, `targetUser` is
the result of `Options[0].UserValue(s)` (`none` for nil). On success a new
`VoteSession` is allocated, stored under the channel, and a goroutine running
`handleVoteCompletion` on it is started. -/
def startVote (st : State) (initiator : String) (targetUser : Option User) : Reply × State :=
  match mapGet st.voiceStates initiator with
  | none => (.NotInRoom, st)
  | some initiatorVoiceState =>
    if initiatorVoiceState.ChannelID = "" then (.NotInRoom, st)
    else
      match targetUser with
      | none => (.InvalidTarget, st)
      | some target =>
        match mapGet st.voiceStates target.ID with
        | none => (.DifferentRooms, st)
        | some targetVoiceState =>
          if targetVoiceState.ChannelID ≠ initiatorVoiceState.ChannelID then (.DifferentRooms, st)
          else
            let guildID := initiatorVoiceState.GuildID
            let currentChannel := initiatorVoiceState.ChannelID
            let totalMembers := countMembersInChannel st.voiceStates currentChannel
            let session : VoteSession :=
              { GuildID := guildID
                ChannelID := currentChannel
                VotesNeeded := requiredVotes totalMembers
                Votes := 0
                UserToKick := target.ID
                Voters := [] }
            let p := st.heap.length
            (.VoteStarted target.Username,
              { st with
                heap := st.heap ++ [session]
                voteSessions := mapSet st.voteSessions currentChannel p
                timers := st.timers ++ [p] })

/-- Lines 278-282 of `addVote`, the update of the session under the lock:
`if voteValue { session.Votes++ }` followed by `session.Voters[voterID] = true`. -/
def recordVote (session : VoteSession) (voterID : String) (voteValue : Bool) : VoteSession :=
  let counted : VoteSession :=
    if voteValue then { session with Votes := session.Votes + 1 } else session
  { counted with Voters := mapSet counted.Voters voterID true }

/-- The handler `addVote`. `voterID` is `i.Member.User.ID`, `voteValue` is
`Options[0].BoolValue()`. The session is found through the voter's current
channel and updated in place. (After a counted vote the source also posts the
tally "Current votes: x/y" from a separate goroutine; that message is not part
of the state.) -/
def addVote (st : State) (voterID : String) (voteValue : Bool) : Reply × State :=
  match mapGet st.voiceStates voterID with
  | none => (.NotInRoom, st)
  | some voterVoiceState =>
    if voterVoiceState.ChannelID = "" then (.NotInRoom, st)
    else
      match sessionAt st voterVoiceState.ChannelID with
      | none => (.NoActiveVote, st)
      | some (p, session) =>
        match mapGet session.Voters voterID with
        | some _ => (.AlreadyVoted, st)
        | none =>
          (.VoteCounted, { st with heap := st.heap.set p (recordVote session voterID voteValue) })

/-- The text sent when a vote passes. -/
def passedMessage : String := "Vote passed. User will be kicked."

/-- The text sent when a vote fails. -/
def failedMessage : String := "Vote failed. Not enough votes."

/-- The body of `handleVoteCompletion` after its 60-second sleep. `session` is
the content of the pointed-to `VoteSession` at that moment (the body only reads
it), `sent` is what `ChannelMessageSend` returns for the "passed" message and
`_timeoutErr` whether `GuildMemberTimeout` fails (the source only logs it). In the passing branch line 318
evaluates `msg.ID`, which panics when `msg` is nil, before the `delete` on line
326 is reached. -/
def handleVoteCompletion (st : State) (session : VoteSession) (sent : SendResult)
    (_timeoutErr : Bool) : Completion :=
  if session.Votes ≥ session.VotesNeeded then
    let calls : List Call :=
      [ Call.ChannelMessageSend session.ChannelID passedMessage,
        Call.GuildMemberTimeout session.GuildID session.UserToKick 300 ]
    match sent.msg with
    | none => { calls := calls, final := none }
    | some _ =>
      { calls := calls
        final := some { st with voteSessions := mapDelete st.voteSessions session.ChannelID } }
  else
    { calls := [ Call.ChannelMessageSend session.ChannelID failedMessage ]
      final := some { st with voteSessions := mapDelete st.voteSessions session.ChannelID } }

/-! ## Executions -/

/-- One atomic step of the program: a presence event, a `startVote` command, an
`addVote` command, or the expiry of a pending timer whose goroutine runs
`handleVoteCompletion` to its end. -/
inductive Step : State → State → Prop where
  | presence (st : State) (vsu : VoiceState) :
      Step st (voiceStateUpdate st vsu)
  | start (st : State) (initiator : String) (targetUser : Option User) :
      Step st (startVote st initiator targetUser).2
  | vote (st : State) (voterID : String) (voteValue : Bool) :
      Step st (addVote st voterID voteValue).2
  | complete (st st' : State) (p : ℕ) (session : VoteSession) (sent : SendResult)
      (timeoutErr : Bool) :
      p ∈ st.timers →
      st.heap[p]? = some session →
      (handleVoteCompletion { st with timers := st.timers.erase p } session sent timeoutErr).final
        = some st' →
      Step st st'

/-- States the program can be in, starting from empty maps. -/
inductive Reachable : State → Prop where
  | start : Reachable State.empty
  | step {st st' : State} : Reachable st → Step st st' → Reachable st'

/-- The property of one session that the vote counter is kept within: it is
non-negative, at most the number of voters, and no voter is listed twice. -/
def VoteSession.Sound (s : VoteSession) : Prop :=
  0 ≤ s.Votes ∧ s.Votes ≤ (s.Voters.length : ℤ) ∧ (mapKeys s.Voters).Nodup

/-! ## Example states -/

/-- A voice state of user `u` in channel "vc" of guild "g". -/
def inVc (u : String) : VoiceState :=
  { UserID := u, ChannelID := "vc", GuildID := "g" }

/-- Four users in the voice channel "vc", no vote running. -/
def room4 : State :=
  { voiceStates := [("ann", inVc "ann"), ("bob", inVc "bob"), ("cat", inVc "cat"),
      ("dan", inVc "dan")]
    voteSessions := []
    heap := []
    timers := [] }

/-- The user "bob" as a command argument. -/
def bob : User := { ID := "bob", Username := "bob" }

/-- The user "dan" as a command argument. -/
def dan : User := { ID := "dan", Username := "dan" }

/-- The user "zed", who has no tracked voice state in the example states. -/
def zed : User := { ID := "zed", Username := "zed" }

/-- The session that "ann" opened against "bob" in `room4`, after "ann" has cast
an affirmative vote. -/
def bobSession : VoteSession :=
  { GuildID := "g", ChannelID := "vc", VotesNeeded := 3, Votes := 1, UserToKick := "bob"
    Voters := [("ann", true)] }

/-- A freshly created session against "dan" in the four-user channel. -/
def danSession : VoteSession :=
  { GuildID := "g", ChannelID := "vc", VotesNeeded := 3, Votes := 0, UserToKick := "dan"
    Voters := [] }

/-- The state `room4` with the vote against "bob" open: the session lives at
address 0, is installed for "vc", and its timer is pending. -/
def voting4 : State :=
  { room4 with voteSessions := [("vc", 0)], heap := [bobSession], timers := [0] }

/-- The state right after "ann" has started the vote against "bob" in `room4`. -/
def started4 : State :=
  { room4 with
    voteSessions := [("vc", 0)]
    heap := [{ bobSession with Votes := 0, Voters := [] }]
    timers := [0] }

/-- The session against "bob" after affirmative votes by "ann", "cat" and "dan". -/
def passSession : VoteSession :=
  { bobSession with Votes := 3, Voters := [("dan", true), ("cat", true), ("ann", true)] }

/-- The state `started4` after those three affirmative votes. -/
def passed4 : State :=
  { started4 with heap := [passSession] }

/-- One user, "eve", alone in the voice channel "vc". -/
def solo : State :=
  { voiceStates := [("eve", inVc "eve")], voteSessions := [], heap := [], timers := [] }

/-- The user "eve" as a command argument. -/
def eve : User := { ID := "eve", Username := "eve" }

/-- Two presence events from the initial state: "ann" and "bob" join "vc". -/
def joined2 : State :=
  voiceStateUpdate (voiceStateUpdate State.empty (inVc "ann")) (inVc "bob")

/-- From `joined2`, "ann" starts a vote against "bob" and votes for it. -/
def reached2 : State :=
  (addVote (startVote joined2 "ann" (some bob)).2 "ann" true).2

/-- Run a list of `addVote` commands (voter, vote value) in order. -/
def castAll (st : State) (votes : List (String × Bool)) : State :=
  votes.foldl (fun acc v => (addVote acc v.1 v.2).2) st

/-- The presence event of "dan" leaving every voice channel. -/
def danLeft : VoiceState :=
  { UserID := "dan", ChannelID := "", GuildID := "g" }

/-- A failed send of the outcome message: nil message, non-nil error. -/
def sendFailed : SendResult := { msg := none, err := true }

/-- A successful send of the outcome message. -/
def sendOk : SendResult := { msg := some "m1", err := false }

/-! ## float64 lemmas -/

theorem roundHalfEven_intCast (z : ℤ) : roundHalfEven (z : ℚ) = z := by
  simp [roundHalfEven]

/-- A rational `k * 2^j` whose magnitude is below `2^(j+53)` is a binary64 value:
rounding leaves it unchanged. -/
theorem f64Round_exact (k j : ℤ) (hj : -1074 ≤ j)
    (hlt : |(k : ℚ) * (2 : ℚ) ^ j| < (2 : ℚ) ^ (j + 53)) :
    f64Round ((k : ℚ) * (2 : ℚ) ^ j) = (k : ℚ) * (2 : ℚ) ^ j := by
  unfold f64Round
  split_ifs with h0
  · exact h0.symm
  · have hpos : 0 < |(k : ℚ) * (2 : ℚ) ^ j| := abs_pos.mpr h0
    have hlog : Int.log 2 |(k : ℚ) * (2 : ℚ) ^ j| < j + 53 :=
      (Int.lt_zpow_iff_log_lt (b := 2) (by norm_num) hpos (x := j + 53)).mp
        (by exact_mod_cast hlt)
    set e : ℤ := max (Int.log 2 |(k : ℚ) * (2 : ℚ) ^ j|) (-1022) - 52 with he
    have hej : e ≤ j := by
      have : max (Int.log 2 |(k : ℚ) * (2 : ℚ) ^ j|) (-1022) ≤ j + 52 := by
        apply max_le <;> omega
      omega
    obtain ⟨d, hd⟩ : ∃ d : ℕ, j = e + d := ⟨(j - e).toNat, by omega⟩
    have h2 : (2 : ℚ) ^ e ≠ 0 := zpow_ne_zero _ (by norm_num)
    have hq : (k : ℚ) * (2 : ℚ) ^ j / (2 : ℚ) ^ e = ((k * 2 ^ d : ℤ) : ℚ) := by
      rw [hd, zpow_add₀ (by norm_num : (2 : ℚ) ≠ 0)]
      field_simp
      ring
    show (roundHalfEven ((k : ℚ) * (2 : ℚ) ^ j / (2 : ℚ) ^ e) : ℚ) * (2 : ℚ) ^ e = _
    rw [hq, roundHalfEven_intCast, ← hq]
    field_simp

theorem f64Round_natCast (n : ℕ) (h : n < 2 ^ 53) : f64Round (n : ℚ) = n := by
  have := f64Round_exact (n : ℤ) 0 (by norm_num) (by
    simp only [zpow_zero, mul_one, zero_add]
    rw [abs_of_nonneg (by positivity)]
    exact_mod_cast h)
  simpa using this

theorem f64Round_quarters (n : ℕ) (h : n < 2 ^ 53) :
    f64Round ((n : ℚ) / 4) = (n : ℚ) / 4 := by
  have h4 : ((2 : ℚ) ^ (-2 : ℤ)) = 1 / 4 := by norm_num [zpow_neg]
  have := f64Round_exact (n : ℤ) (-2) (by norm_num) (by
    rw [abs_of_nonneg (by positivity)]
    have h51 : ((2 : ℚ) ^ (-2 + 53 : ℤ)) = 2 ^ 51 := by norm_num
    rw [h4, h51]
    have : (n : ℚ) < 2 ^ 53 := by exact_mod_cast h
    push_cast
    linarith)
  rw [h4] at this
  simpa [div_eq_mul_inv] using this

/-- While `75 * n` fits the 53-bit significand, none of the three float64
operations of `requiredVotes` rounds, and the result is the integer quotient. -/
theorem requiredVotes_eq_floor (n : ℕ) (h : n * 75 < 2 ^ 53) :
    requiredVotes n = ((n * 75 / 100 : ℕ) : ℤ) := by
  unfold requiredVotes VotePercentage goTrunc
  rw [f64Round_natCast n (by omega)]
  have h1 : (n : ℚ) * 75 = ((n * 75 : ℕ) : ℚ) := by push_cast; ring
  rw [h1, f64Round_natCast _ h]
  have h2 : (((n * 75 : ℕ) : ℚ)) / 100 = ((n * 3 : ℕ) : ℚ) / 4 := by push_cast; ring
  rw [h2, f64Round_quarters _ (by omega)]
  rw [if_pos (by positivity)]
  have h3 : ((n * 3 : ℕ) : ℚ) / 4 = ((n * 3 : ℕ) : ℚ) / ((4 : ℕ) : ℚ) := by norm_num
  rw [h3, Rat.floor_natCast_div_natCast]
  omega

/-! ## Map lemmas -/

theorem mapGet_some_mem {α : Type} (m : GoMap α) (k : String) (v : α)
    (h : mapGet m k = some v) : (k, v) ∈ m := by
  induction m with
  | nil => simp [mapGet] at h
  | cons e m ih =>
    obtain ⟨k', v'⟩ := e
    unfold mapGet at h ih
    rw [List.lookup_cons] at h
    by_cases hk : k = k'
    · subst hk
      simp at h
      simp [h]
    · have : (k == k') = false := by simpa using hk
      rw [this] at h
      exact List.mem_cons_of_mem _ (ih h)

theorem mapGet_none_not_mem {α : Type} (m : GoMap α) (k : String)
    (h : mapGet m k = none) : k ∉ mapKeys m := by
  induction m with
  | nil => simp [mapKeys]
  | cons e m ih =>
    obtain ⟨k', v'⟩ := e
    unfold mapGet at h ih
    rw [List.lookup_cons] at h
    by_cases hk : k = k'
    · subst hk
      simp at h
    · have hb : (k == k') = false := by simpa using hk
      rw [hb] at h
      have := ih h
      simp only [mapKeys, List.map_cons, List.mem_cons, not_or] at this ⊢
      exact ⟨hk, this⟩

theorem filter_ne_of_not_mem {α : Type} (m : GoMap α) (k : String)
    (h : k ∉ mapKeys m) : m.filter (fun e => e.1 != k) = m := by
  rw [List.filter_eq_self]
  intro e he
  have : e.1 ≠ k := by
    intro hk
    exact h (hk ▸ List.mem_map_of_mem Prod.fst he)
  simpa using this

theorem mapGet_mapSet_self {α : Type} (m : GoMap α) (k : String) (v : α) :
    mapGet (mapSet m k v) k = some v := by
  simp [mapGet, mapSet, List.lookup_cons]

theorem mapGet_filter_ne {α : Type} (m : GoMap α) (k k' : String) (h : k' ≠ k) :
    mapGet (m.filter (fun e => e.1 != k)) k' = mapGet m k' := by
  induction m with
  | nil => rfl
  | cons e m ih =>
    obtain ⟨a, b⟩ := e
    unfold mapGet at ih ⊢
    by_cases ha : a = k
    · subst ha
      have hb : (k' == a) = false := by simpa using h
      simp [List.filter_cons, List.lookup_cons, hb, ih]
    · have hf : (a != k) = true := by simpa using ha
      simp only [List.filter_cons, hf, if_true, List.lookup_cons, ih]

theorem mapGet_mapSet_ne {α : Type} (m : GoMap α) (k k' : String) (v : α) (h : k' ≠ k) :
    mapGet (mapSet m k v) k' = mapGet m k' := by
  have hb : (k' == k) = false := by simpa using h
  have := mapGet_filter_ne m k k' h
  unfold mapGet at this ⊢
  simp only [mapSet, List.lookup_cons, hb, this]

theorem mapGet_mapDelete_self {α : Type} (m : GoMap α) (k : String) :
    mapGet (mapDelete m k) k = none := by
  induction m with
  | nil => rfl
  | cons e m ih =>
    obtain ⟨a, b⟩ := e
    unfold mapGet mapDelete at ih ⊢
    by_cases ha : a = k
    · subst ha
      simpa [List.filter_cons] using ih
    · have hf : (a != k) = true := by simpa using ha
      have hb : (k == a) = false := by simpa using (Ne.symm ha)
      simp only [List.filter_cons, hf, if_true, List.lookup_cons, hb, ih]

theorem foldl_count_add (p : String × VoiceState → Prop) [DecidablePred p]
    (l : List (String × VoiceState)) (n : ℕ) :
    l.foldl (fun count e => if p e then count + 1 else count) n
      = n + l.countP (fun e => decide (p e)) := by
  induction l generalizing n with
  | nil => simp
  | cons e l ih =>
    by_cases he : p e
    · simp [List.foldl_cons, he, ih, List.countP_cons]
      omega
    · simp [List.foldl_cons, he, ih, List.countP_cons]

theorem countMembersInChannel_eq_countP (m : GoMap VoiceState) (c : String) :
    countMembersInChannel m c = m.countP (fun e => decide (e.2.ChannelID = c)) := by
  unfold countMembersInChannel
  rw [foldl_count_add (fun e => e.2.ChannelID = c)]
  simp

/-- What an accepted `startVote` leaves behind, spelled out. -/
theorem startVote_accepted (st : State) (initiator : String) (target : User)
    (iv tv : VoiceState) (hi : mapGet st.voiceStates initiator = some iv)
    (hne : iv.ChannelID ≠ "") (ht : mapGet st.voiceStates target.ID = some tv)
    (hsame : tv.ChannelID = iv.ChannelID) :
    startVote st initiator (some target) =
      (.VoteStarted target.Username,
        { st with
          heap := st.heap ++
            [{ GuildID := iv.GuildID
               ChannelID := iv.ChannelID
               VotesNeeded := requiredVotes (countMembersInChannel st.voiceStates iv.ChannelID)
               Votes := 0
               UserToKick := target.ID
               Voters := [] }]
          voteSessions := mapSet st.voteSessions iv.ChannelID st.heap.length
          timers := st.timers ++ [st.heap.length] }) := by
  simp [startVote, hi, hne, ht, hsame]

/-- A `VoteStarted` reply is only produced on the accepting path of `startVote`. -/
theorem startVote_started_inv (st : State) (initiator : String) (targetUser : Option User)
    (name : String) (h : (startVote st initiator targetUser).1 = .VoteStarted name) :
    ∃ (target : User) (iv tv : VoiceState), targetUser = some target ∧
      mapGet st.voiceStates initiator = some iv ∧ iv.ChannelID ≠ "" ∧
      mapGet st.voiceStates target.ID = some tv ∧ tv.ChannelID = iv.ChannelID := by
  unfold startVote at h
  cases hi : mapGet st.voiceStates initiator with
  | none => simp [hi] at h
  | some iv =>
    by_cases hne : iv.ChannelID = ""
    · simp [hi, hne] at h
    · cases targetUser with
      | none => simp [hi, hne] at h
      | some target =>
        cases ht : mapGet st.voiceStates target.ID with
        | none => simp [hi, hne, ht] at h
        | some tv =>
          by_cases hsame : tv.ChannelID = iv.ChannelID
          · exact ⟨target, iv, tv, rfl, rfl, hne, ht, hsame⟩
          · simp [hi, hne, ht, hsame] at h

theorem sessionAt_after_start (st : State) (c : String) (s : VoteSession) (ts : List ℕ) :
    sessionAt { st with heap := st.heap ++ [s]
                        voteSessions := mapSet st.voteSessions c st.heap.length
                        timers := ts } c = some (st.heap.length, s) := by
  simp [sessionAt, mapGet_mapSet_self]

theorem requiredVotes_four : requiredVotes 4 = 3 := by
  rw [requiredVotes_eq_floor 4 (by norm_num)]; rfl

theorem requiredVotes_three : requiredVotes 3 = 2 := by
  rw [requiredVotes_eq_floor 3 (by norm_num)]; rfl

/-! ## C1: the threshold of a new session -/

/-- C1: whenever `startVote` is accepted, the session it installs for the
initiator's channel has `VotesNeeded = floor(N * 75 / 100)`, where `N` is the
number of tracked voice states in that channel (any `N` whose product with 75
fits the float64 significand, which covers every map that fits in memory); four
members give 3 and three members give 2. -/
theorem startVote_votesNeeded_floor :
    (∀ (st : State) (initiator : String) (targetUser : Option User) (name : String)
        (iv : VoiceState),
      mapGet st.voiceStates initiator = some iv →
      (startVote st initiator targetUser).1 = .VoteStarted name →
      countMembersInChannel st.voiceStates iv.ChannelID * 75 < 2 ^ 53 →
      ∃ p session,
        sessionAt (startVote st initiator targetUser).2 iv.ChannelID = some (p, session) ∧
        session.VotesNeeded =
          ((countMembersInChannel st.voiceStates iv.ChannelID * 75 / 100 : ℕ) : ℤ)) ∧
    requiredVotes 4 = 3 ∧ requiredVotes 3 = 2 := by
  refine ⟨?_, requiredVotes_four, requiredVotes_three⟩
  intro st initiator targetUser name iv hi hstart hN
  obtain ⟨target, iv', tv, rfl, hi', hne, ht, hsame⟩ :=
    startVote_started_inv st initiator targetUser name hstart
  have hiv : iv' = iv := by rw [hi] at hi'; exact (Option.some.inj hi').symm
  subst hiv
  rw [startVote_accepted st initiator target iv' tv hi hne ht hsame]
  refine ⟨st.heap.length, _, sessionAt_after_start st _ _ _, ?_⟩
  exact requiredVotes_eq_floor _ hN

/-- Witness for C1: in `room4` (four members), "ann" starting a vote against
"bob" installs a session with `VotesNeeded = 3`. -/
theorem startVote_votesNeeded_floor_witness :
    mapGet room4.voiceStates "ann" = some (inVc "ann") ∧
    (startVote room4 "ann" (some bob)).1 = .VoteStarted "bob" ∧
    countMembersInChannel room4.voiceStates (inVc "ann").ChannelID * 75 < 2 ^ 53 ∧
    ∃ p session,
      sessionAt (startVote room4 "ann" (some bob)).2 (inVc "ann").ChannelID
        = some (p, session) ∧
      session.VotesNeeded =
        ((countMembersInChannel room4.voiceStates (inVc "ann").ChannelID * 75 / 100 : ℕ) : ℤ) :=
  ⟨by decide, by decide, by decide,
    startVote_votesNeeded_floor.1 room4 "ann" (some bob) "bob" (inVc "ann")
      (by decide) (by decide) (by decide)⟩

/-! ## C7: rejected `startVote` commands -/

/-- C7: `startVote` answers `NotInRoom` exactly when the initiator has no voice
state or an empty channel; when the initiator is in a channel and a target user
is given, it answers `DifferentRooms` exactly when the target has no voice state
or a different channel; and every rejecting answer leaves the whole state (both
maps, every session object, the pending timers) as it was. -/
theorem startVote_rejections (st : State) (initiator : String) (targetUser : Option User) :
    ((startVote st initiator targetUser).1 = .NotInRoom ↔
      (mapGet st.voiceStates initiator = none ∨
        ∃ iv, mapGet st.voiceStates initiator = some iv ∧ iv.ChannelID = "")) ∧
    (∀ (iv : VoiceState) (target : User),
      mapGet st.voiceStates initiator = some iv → iv.ChannelID ≠ "" →
      targetUser = some target →
      ((startVote st initiator targetUser).1 = .DifferentRooms ↔
        (mapGet st.voiceStates target.ID = none ∨
          ∃ tv, mapGet st.voiceStates target.ID = some tv ∧ tv.ChannelID ≠ iv.ChannelID))) ∧
    ((startVote st initiator targetUser).1.isRejection = true →
      (startVote st initiator targetUser).2 = st) := by
  refine ⟨?_, ?_, ?_⟩
  · unfold startVote
    cases hi : mapGet st.voiceStates initiator with
    | none => simp
    | some iv =>
      by_cases hne : iv.ChannelID = ""
      · simp [hne]
      · cases targetUser with
        | none => simp [hne]
        | some target =>
          cases ht : mapGet st.voiceStates target.ID with
          | none => simp [hne, ht]
          | some tv =>
            by_cases hsame : tv.ChannelID = iv.ChannelID <;> simp [hne, ht, hsame]
  · intro iv target hi hne htarget
    subst htarget
    unfold startVote
    cases ht : mapGet st.voiceStates target.ID with
    | none => simp [hi, hne, ht]
    | some tv =>
      by_cases hsame : tv.ChannelID = iv.ChannelID <;> simp [hi, hne, ht, hsame]
  · unfold startVote
    cases hi : mapGet st.voiceStates initiator with
    | none => simp
    | some iv =>
      by_cases hne : iv.ChannelID = ""
      · simp [hne]
      · cases targetUser with
        | none => simp [hne]
        | some target =>
          cases ht : mapGet st.voiceStates target.ID with
          | none => simp [hne, ht]
          | some tv =>
            by_cases hsame : tv.ChannelID = iv.ChannelID <;>
              simp [hne, ht, hsame, Reply.isRejection]

/-- Witness for C7: in `voting4`, "ann" naming the untracked user "zed" gets
`DifferentRooms`, and the state with its open session and timer is unchanged. -/
theorem startVote_rejections_witness :
    mapGet voting4.voiceStates "ann" = some (inVc "ann") ∧ (inVc "ann").ChannelID ≠ "" ∧
    ((startVote voting4 "ann" (some zed)).1 = .DifferentRooms ↔
      (mapGet voting4.voiceStates zed.ID = none ∨
        ∃ tv, mapGet voting4.voiceStates zed.ID = some tv ∧
          tv.ChannelID ≠ (inVc "ann").ChannelID)) ∧
    (startVote voting4 "ann" (some zed)).1.isRejection = true ∧
    (startVote voting4 "ann" (some zed)).2 = voting4 :=
  ⟨by decide, by decide,
    (startVote_rejections voting4 "ann" (some zed)).2.1 (inVc "ann") zed
      (by decide) (by decide) rfl,
    by decide,
    (startVote_rejections voting4 "ann" (some zed)).2.2 (by decide)⟩

/-! ## `addVote` -/

theorem sessionAt_some (st : State) (c : String) (p : ℕ) (s : VoteSession)
    (h : sessionAt st c = some (p, s)) :
    mapGet st.voteSessions c = some p ∧ st.heap[p]? = some s := by
  unfold sessionAt at h
  cases hm : mapGet st.voteSessions c with
  | none => simp [hm] at h
  | some q =>
    cases hq : st.heap[q]? with
    | none => simp [hm, hq] at h
    | some t =>
      simp only [hm, hq, Option.some.injEq, Prod.mk.injEq] at h
      obtain ⟨rfl, rfl⟩ := h
      exact ⟨rfl, hq⟩

theorem recordVote_Voters (s : VoteSession) (voterID : String) (voteValue : Bool) :
    (recordVote s voterID voteValue).Voters = mapSet s.Voters voterID true := by
  cases voteValue <;> rfl

theorem recordVote_Votes (s : VoteSession) (voterID : String) (voteValue : Bool) :
    (recordVote s voterID voteValue).Votes = s.Votes + (if voteValue then 1 else 0) := by
  cases voteValue <;> simp [recordVote]

theorem recordVote_frame (s : VoteSession) (voterID : String) (voteValue : Bool) :
    (recordVote s voterID voteValue).VotesNeeded = s.VotesNeeded ∧
    (recordVote s voterID voteValue).ChannelID = s.ChannelID ∧
    (recordVote s voterID voteValue).GuildID = s.GuildID ∧
    (recordVote s voterID voteValue).UserToKick = s.UserToKick := by
  cases voteValue <;> simp [recordVote]

/-- The refusing path of `addVote` for a user who is already a key of `Voters`. -/
theorem addVote_refused (st : State) (voterID : String) (voteValue : Bool) (vs : VoiceState)
    (p : ℕ) (s : VoteSession) (b : Bool)
    (hv : mapGet st.voiceStates voterID = some vs) (hne : vs.ChannelID ≠ "")
    (hs : sessionAt st vs.ChannelID = some (p, s))
    (hb : mapGet s.Voters voterID = some b) :
    addVote st voterID voteValue = (.AlreadyVoted, st) := by
  simp [addVote, hv, hne, hs, hb]

/-- The accepting path of `addVote` for a user who is not yet a key of `Voters`. -/
theorem addVote_counted (st : State) (voterID : String) (voteValue : Bool) (vs : VoiceState)
    (p : ℕ) (s : VoteSession)
    (hv : mapGet st.voiceStates voterID = some vs) (hne : vs.ChannelID ≠ "")
    (hs : sessionAt st vs.ChannelID = some (p, s))
    (hb : mapGet s.Voters voterID = none) :
    addVote st voterID voteValue =
      (.VoteCounted,
        { st with heap := st.heap.set p (recordVote s voterID voteValue) }) := by
  simp [addVote, hv, hne, hs, hb]

/-- Every outcome of `addVote` other than `VoteCounted` leaves the state alone; a
counted vote rewrites exactly one heap cell. -/
theorem addVote_cases (st : State) (voterID : String) (voteValue : Bool) :
    (addVote st voterID voteValue).2 = st ∨
    ∃ (vs : VoiceState) (p : ℕ) (s : VoteSession),
      mapGet st.voiceStates voterID = some vs ∧ vs.ChannelID ≠ "" ∧
      sessionAt st vs.ChannelID = some (p, s) ∧ mapGet s.Voters voterID = none ∧
      (addVote st voterID voteValue).2 =
        { st with heap := st.heap.set p (recordVote s voterID voteValue) } := by
  cases hv : mapGet st.voiceStates voterID with
  | none => left; simp [addVote, hv]
  | some vs =>
    by_cases hne : vs.ChannelID = ""
    · left; simp [addVote, hv, hne]
    · cases hs : sessionAt st vs.ChannelID with
      | none => left; simp [addVote, hv, hne, hs]
      | some ps =>
        obtain ⟨p, s⟩ := ps
        cases hb : mapGet s.Voters voterID with
        | some b => left; rw [addVote_refused st voterID voteValue vs p s b hv hne hs hb]
        | none =>
          right
          exact ⟨vs, p, s, rfl, hne, hs, hb, by
            rw [addVote_counted st voterID voteValue vs p s hv hne hs hb]⟩

theorem sessionAt_heap_set (st : State) (c : String) (p q : ℕ) (s u : VoteSession)
    (h : sessionAt st c = some (q, s)) :
    sessionAt { st with heap := st.heap.set p u } c = some (q, if p = q then u else s) := by
  obtain ⟨hm, hq⟩ := sessionAt_some st c q s h
  have hlt : q < st.heap.length := (List.getElem?_eq_some.mp hq).1
  by_cases hpq : p = q
  · subst hpq
    simp [sessionAt, hm, List.getElem?_set, hlt]
  · simp [sessionAt, hm, List.getElem?_set, hpq, hq]

/-! ## C3: a second vote is refused -/

/-- C3: if a user whose tracked channel has an open session is already a key of
that session's `Voters` (whatever value was recorded, so after an affirmative
or a negative vote), then `addVote` with either vote value answers
`AlreadyVoted` and changes nothing: the state, and with it the session's
`Votes` and `Voters`, are the same afterwards. -/
theorem addVote_twice_rejected (st : State) (voterID : String) (vs : VoiceState) (p : ℕ)
    (s : VoteSession) (b : Bool)
    (hv : mapGet st.voiceStates voterID = some vs) (hne : vs.ChannelID ≠ "")
    (hs : sessionAt st vs.ChannelID = some (p, s))
    (hb : mapGet s.Voters voterID = some b) (voteValue : Bool) :
    (addVote st voterID voteValue).1 = .AlreadyVoted ∧
    (addVote st voterID voteValue).2 = st ∧
    sessionAt (addVote st voterID voteValue).2 vs.ChannelID = some (p, s) := by
  rw [addVote_refused st voterID voteValue vs p s b hv hne hs hb]
  exact ⟨rfl, rfl, hs⟩

/-- Witness for C3: in `voting4`, "ann" has voted; her second vote (this time
negative) is refused and the state is unchanged. -/
theorem addVote_twice_rejected_witness :
    mapGet voting4.voiceStates "ann" = some (inVc "ann") ∧ (inVc "ann").ChannelID ≠ "" ∧
    sessionAt voting4 (inVc "ann").ChannelID = some (0, bobSession) ∧
    mapGet bobSession.Voters "ann" = some true ∧
    (addVote voting4 "ann" false).1 = .AlreadyVoted ∧
    (addVote voting4 "ann" false).2 = voting4 ∧
    sessionAt (addVote voting4 "ann" false).2 (inVc "ann").ChannelID = some (0, bobSession) :=
  ⟨by decide, by decide, by decide, by decide,
    addVote_twice_rejected voting4 "ann" (inVc "ann") 0 bobSession true
      (by decide) (by decide) (by decide) (by decide) false⟩

/-! ## C4: a first vote is counted once -/

/-- C4: if a user whose tracked channel has an open session is not yet a key of
that session's `Voters`, then `addVote` answers `VoteCounted`, the session stays
installed at the same address, its `Votes` grows by exactly 1 for an affirmative
vote and by 0 for a negative one, the user becomes a voter (the keys of `Voters`
are the old keys plus the user, one entry more), and any further `addVote` by
the same user answers `AlreadyVoted` and changes nothing. -/
theorem addVote_first_vote (st : State) (voterID : String) (vs : VoiceState) (p : ℕ)
    (s : VoteSession)
    (hv : mapGet st.voiceStates voterID = some vs) (hne : vs.ChannelID ≠ "")
    (hs : sessionAt st vs.ChannelID = some (p, s))
    (hb : mapGet s.Voters voterID = none) (voteValue : Bool) :
    (addVote st voterID voteValue).1 = .VoteCounted ∧
    ∃ s' : VoteSession,
      sessionAt (addVote st voterID voteValue).2 vs.ChannelID = some (p, s') ∧
      s'.Votes = s.Votes + (if voteValue then 1 else 0) ∧
      mapGet s'.Voters voterID = some true ∧
      mapKeys s'.Voters = voterID :: mapKeys s.Voters ∧
      s'.Voters.length = s.Voters.length + 1 ∧
      ∀ again : Bool,
        addVote (addVote st voterID voteValue).2 voterID again
          = (.AlreadyVoted, (addVote st voterID voteValue).2) := by
  rw [addVote_counted st voterID voteValue vs p s hv hne hs hb]
  have hset : sessionAt { st with heap := st.heap.set p (recordVote s voterID voteValue) }
      vs.ChannelID = some (p, recordVote s voterID voteValue) := by
    have := sessionAt_heap_set st vs.ChannelID p p s (recordVote s voterID voteValue) hs
    rw [this, if_pos rfl]
  have hnot := mapGet_none_not_mem _ _ hb
  refine ⟨rfl, recordVote s voterID voteValue, hset, recordVote_Votes _ _ _, ?_, ?_, ?_, ?_⟩
  · rw [recordVote_Voters]; exact mapGet_mapSet_self _ _ _
  · rw [recordVote_Voters]; simp [mapSet, mapKeys, filter_ne_of_not_mem _ _ hnot]
  · rw [recordVote_Voters]; simp [mapSet, filter_ne_of_not_mem _ _ hnot]
  · intro again
    refine addVote_refused _ voterID again vs p _ true hv hne hset ?_
    rw [recordVote_Voters]; exact mapGet_mapSet_self _ _ _

/-- Witness for C4: in `voting4`, "cat" has not voted; her negative vote is
counted without raising `Votes`, and her next vote is refused. -/
theorem addVote_first_vote_witness :
    mapGet voting4.voiceStates "cat" = some (inVc "cat") ∧ (inVc "cat").ChannelID ≠ "" ∧
    sessionAt voting4 (inVc "cat").ChannelID = some (0, bobSession) ∧
    mapGet bobSession.Voters "cat" = none ∧
    (addVote voting4 "cat" false).1 = .VoteCounted ∧
    ∃ s' : VoteSession,
      sessionAt (addVote voting4 "cat" false).2 (inVc "cat").ChannelID = some (0, s') ∧
      s'.Votes = bobSession.Votes + (if false then 1 else 0) ∧
      mapGet s'.Voters "cat" = some true ∧
      mapKeys s'.Voters = "cat" :: mapKeys bobSession.Voters ∧
      s'.Voters.length = bobSession.Voters.length + 1 ∧
      ∀ again : Bool,
        addVote (addVote voting4 "cat" false).2 "cat" again
          = (.AlreadyVoted, (addVote voting4 "cat" false).2) :=
  ⟨by decide, by decide, by decide, by decide,
    addVote_first_vote voting4 "cat" (inVc "cat") 0 bobSession
      (by decide) (by decide) (by decide) (by decide) false⟩

/-! ## C9: the threshold is a snapshot -/

/-- C9: for every session installed for a channel, a presence update leaves the
session exactly as it is, and an `addVote` by anyone with either vote value
leaves it installed at the same address with the same `VotesNeeded`,
`ChannelID`, `GuildID` and `UserToKick`; nothing recomputes the threshold when
the channel's occupancy changes. -/
theorem session_snapshot_frame (st : State) (c : String) (p : ℕ) (s : VoteSession)
    (hs : sessionAt st c = some (p, s)) :
    (∀ vsu : VoiceState, sessionAt (voiceStateUpdate st vsu) c = some (p, s)) ∧
    (∀ (voterID : String) (voteValue : Bool), ∃ s' : VoteSession,
      sessionAt (addVote st voterID voteValue).2 c = some (p, s') ∧
      s'.VotesNeeded = s.VotesNeeded ∧ s'.ChannelID = s.ChannelID ∧
      s'.GuildID = s.GuildID ∧ s'.UserToKick = s.UserToKick) := by
  constructor
  · intro vsu
    simpa [voiceStateUpdate, sessionAt] using hs
  · intro voterID voteValue
    rcases addVote_cases st voterID voteValue with h | ⟨vs, q, t, _, _, ht, _, h⟩
    · exact ⟨s, by rw [h]; exact hs, rfl, rfl, rfl, rfl⟩
    · rw [h, sessionAt_heap_set st c q p s (recordVote t voterID voteValue) hs]
      by_cases hqp : q = p
      · subst hqp
        have hts : t = s := by
          have h1 := (sessionAt_some st _ q t ht).2
          have h2 := (sessionAt_some st _ q s hs).2
          rw [h1] at h2
          exact Option.some.inj h2
        subst hts
        obtain ⟨h1, h2, h3, h4⟩ := recordVote_frame t voterID voteValue
        exact ⟨_, by rw [if_pos rfl], h1, h2, h3, h4⟩
      · exact ⟨s, by rw [if_neg hqp], rfl, rfl, rfl, rfl⟩

/-- Witness for C9: in `voting4` the session has `VotesNeeded = 3`; after "dan"
leaves, the channel counts three members and the session is unchanged. -/
theorem session_snapshot_frame_witness :
    sessionAt voting4 "vc" = some (0, bobSession) ∧
    countMembersInChannel voting4.voiceStates "vc" = 4 ∧
    countMembersInChannel (voiceStateUpdate voting4 danLeft).voiceStates "vc" = 3 ∧
    sessionAt (voiceStateUpdate voting4 danLeft) "vc" = some (0, bobSession) :=
  ⟨by decide, by decide, by decide,
    (session_snapshot_frame voting4 "vc" 0 bobSession (by decide)).1 danLeft⟩

/-! ## C5: the outcome of a session -/

theorem startVote_room4 : startVote room4 "ann" (some bob) = (.VoteStarted "bob", started4) := by
  rw [startVote_accepted room4 "ann" bob (inVc "ann") (inVc "bob") (by decide) (by decide)
    (by decide) (by decide)]
  have hc : countMembersInChannel room4.voiceStates (inVc "ann").ChannelID = 4 := by decide
  rw [hc, requiredVotes_four]
  rfl

/-- C5: `handleVoteCompletion` takes the passing branch exactly when
`Votes >= VotesNeeded`: then its calls are the "passed" message followed by one
`GuildMemberTimeout` on the session's guild and `UserToKick` for 300 seconds;
otherwise its only call is the "failed" message. After "ann" opens the vote in
the four-member channel (`VotesNeeded = 3`), three affirmative votes pass, and
two affirmative votes plus a negative one fail. -/
theorem handleVoteCompletion_outcome :
    (∀ (st : State) (session : VoteSession) (sent : SendResult) (timeoutErr : Bool),
      (session.Votes ≥ session.VotesNeeded →
        (handleVoteCompletion st session sent timeoutErr).calls =
          [ Call.ChannelMessageSend session.ChannelID passedMessage,
            Call.GuildMemberTimeout session.GuildID session.UserToKick 300 ]) ∧
      (¬ session.Votes ≥ session.VotesNeeded →
        (handleVoteCompletion st session sent timeoutErr).calls =
          [ Call.ChannelMessageSend session.ChannelID failedMessage ])) ∧
    (∃ (st : State) (session : VoteSession),
      st = castAll (startVote room4 "ann" (some bob)).2
        [("ann", true), ("cat", true), ("dan", true)] ∧
      sessionAt st "vc" = some (0, session) ∧
      session.VotesNeeded = 3 ∧ session.Votes = 3 ∧
      (handleVoteCompletion st session sendOk false).calls =
        [ Call.ChannelMessageSend "vc" passedMessage, Call.GuildMemberTimeout "g" "bob" 300 ]) ∧
    (∃ (st : State) (session : VoteSession),
      st = castAll (startVote room4 "ann" (some bob)).2
        [("ann", true), ("cat", true), ("dan", false)] ∧
      sessionAt st "vc" = some (0, session) ∧
      session.VotesNeeded = 3 ∧ session.Votes = 2 ∧
      (handleVoteCompletion st session sendOk false).calls =
        [ Call.ChannelMessageSend "vc" failedMessage ]) := by
  refine ⟨?_, ?_, ?_⟩
  · intro st session sent timeoutErr
    constructor
    · intro h
      unfold handleVoteCompletion
      rw [if_pos h]
      cases sent.msg <;> rfl
    · intro h
      unfold handleVoteCompletion
      rw [if_neg h]
  · rw [startVote_room4]
    exact ⟨_, { bobSession with
                Votes := 3, Voters := [("dan", true), ("cat", true), ("ann", true)] },
      rfl, by decide, by decide, by decide, by decide⟩
  · rw [startVote_room4]
    exact ⟨_, { bobSession with
                Votes := 2, Voters := [("dan", true), ("cat", true), ("ann", true)] },
      rfl, by decide, by decide, by decide, by decide⟩

/-- Witness for C5: a session with three votes of three needed passes, one with
two of three fails. -/
theorem handleVoteCompletion_outcome_witness :
    (({ bobSession with Votes := 3 } : VoteSession).Votes
        ≥ ({ bobSession with Votes := 3 } : VoteSession).VotesNeeded ∧
      (handleVoteCompletion voting4 { bobSession with Votes := 3 } sendOk false).calls =
        [ Call.ChannelMessageSend "vc" passedMessage,
          Call.GuildMemberTimeout "g" "bob" 300 ]) ∧
    (¬ ({ bobSession with Votes := 2 } : VoteSession).Votes
        ≥ ({ bobSession with Votes := 2 } : VoteSession).VotesNeeded ∧
      (handleVoteCompletion voting4 { bobSession with Votes := 2 } sendOk false).calls =
        [ Call.ChannelMessageSend "vc" failedMessage ]) :=
  ⟨⟨by decide,
      (handleVoteCompletion_outcome.1 voting4 { bobSession with Votes := 3 } sendOk false).1
        (by decide)⟩,
    ⟨by decide,
      (handleVoteCompletion_outcome.1 voting4 { bobSession with Votes := 2 } sendOk false).2
        (by decide)⟩⟩

/-! ## C6: completion when the outcome message cannot be sent -/

/-- C6 (failing input): after "ann" opens the vote in the four-member channel and
three affirmative votes arrive, the session passes. If the send of the "passed"
message fails and returns a nil message, `handleVoteCompletion` still calls the
timeout but then panics on `msg.ID` (line 318): there is no final state, and
the `delete` of line 326 is never executed. With a successful send the same
run ends with the channel's entry removed. -/
theorem handleVoteCompletion_nil_message_panics :
    castAll (startVote room4 "ann" (some bob)).2 [("ann", true), ("cat", true), ("dan", true)]
      = passed4 ∧
    0 ∈ passed4.timers ∧ passed4.heap[0]? = some passSession ∧
    passSession.Votes ≥ passSession.VotesNeeded ∧
    (handleVoteCompletion { passed4 with timers := passed4.timers.erase 0 } passSession
        sendFailed false).calls
      = [ Call.ChannelMessageSend "vc" passedMessage, Call.GuildMemberTimeout "g" "bob" 300 ] ∧
    (handleVoteCompletion { passed4 with timers := passed4.timers.erase 0 } passSession
        sendFailed false).final = none ∧
    (handleVoteCompletion { passed4 with timers := passed4.timers.erase 0 } passSession
        sendOk false).final = some { passed4 with voteSessions := [], timers := [] } := by
  rw [startVote_room4]
  exact ⟨by decide, by decide, by decide, by decide, by decide, by decide, by decide⟩

/-! ## C2: `startVote` while a session is open -/

/-- C2 (counterexample): in `voting4` the channel "vc" has an open session
against "bob" with one vote by "ann". "cat" and "dan" share that channel, and
`startVote` by "cat" against "dan" is accepted: the channel now points to a new
session at address 1 against "dan" with no votes, and a second timer runs. -/
theorem startVote_open_session_counterexample :
    sessionAt voting4 "vc" = some (0, bobSession) ∧
    mapGet voting4.voiceStates "cat" = some (inVc "cat") ∧
    mapGet voting4.voiceStates "dan" = some (inVc "dan") ∧
    (startVote voting4 "cat" (some dan)).1 = .VoteStarted "dan" ∧
    (startVote voting4 "cat" (some dan)).1.isRejection = false ∧
    sessionAt (startVote voting4 "cat" (some dan)).2 "vc" = some (1, danSession) ∧
    danSession ≠ bobSession ∧
    (startVote voting4 "cat" (some dan)).2.timers = [0, 1] := by
  have hc : countMembersInChannel voting4.voiceStates (inVc "cat").ChannelID = 4 := by decide
  rw [startVote_accepted voting4 "cat" dan (inVc "cat") (inVc "dan") (by decide) (by decide)
    (by decide) (by decide), hc, requiredVotes_four]
  exact ⟨by decide, by decide, by decide, by decide, by decide, by decide, by decide, by decide⟩

/-- C2 (amended): when the initiator's channel already has an open session and
initiator and target share that channel, `startVote` is accepted. It allocates a
new session (no votes, no voters, the new target, the threshold of the current
occupancy) at a new address, installs it for the channel in place of the
existing one, and starts one more timer; the replaced session object is left
unmodified in memory. -/
theorem startVote_replaces_open_session (st : State) (initiator : String) (target : User)
    (iv tv : VoiceState) (p : ℕ) (s : VoteSession)
    (hi : mapGet st.voiceStates initiator = some iv) (hne : iv.ChannelID ≠ "")
    (ht : mapGet st.voiceStates target.ID = some tv) (hsame : tv.ChannelID = iv.ChannelID)
    (hs : sessionAt st iv.ChannelID = some (p, s)) :
    (startVote st initiator (some target)).1 = .VoteStarted target.Username ∧
    ∃ fresh : VoteSession,
      sessionAt (startVote st initiator (some target)).2 iv.ChannelID
        = some (st.heap.length, fresh) ∧
      st.heap.length ≠ p ∧
      fresh.Votes = 0 ∧ fresh.Voters = [] ∧ fresh.UserToKick = target.ID ∧
      fresh.ChannelID = iv.ChannelID ∧ fresh.GuildID = iv.GuildID ∧
      fresh.VotesNeeded = requiredVotes (countMembersInChannel st.voiceStates iv.ChannelID) ∧
      (startVote st initiator (some target)).2.heap[p]? = some s ∧
      (startVote st initiator (some target)).2.timers = st.timers ++ [st.heap.length] := by
  have hp := (sessionAt_some st _ p s hs).2
  have hlt : p < st.heap.length := (List.getElem?_eq_some.mp hp).1
  rw [startVote_accepted st initiator target iv tv hi hne ht hsame]
  refine ⟨rfl, _, sessionAt_after_start st _ _ _, by omega, rfl, rfl, rfl, rfl, rfl, rfl, ?_, rfl⟩
  show (st.heap ++ _)[p]? = some s
  rw [List.getElem?_append_left hlt]
  exact hp

/-- Witness for C2 (amended): the replacement of the open session of `voting4`
by the vote of "cat" against "dan". -/
theorem startVote_replaces_open_session_witness :
    mapGet voting4.voiceStates "cat" = some (inVc "cat") ∧ (inVc "cat").ChannelID ≠ "" ∧
    mapGet voting4.voiceStates dan.ID = some (inVc "dan") ∧
    (inVc "dan").ChannelID = (inVc "cat").ChannelID ∧
    sessionAt voting4 (inVc "cat").ChannelID = some (0, bobSession) ∧
    (startVote voting4 "cat" (some dan)).1 = .VoteStarted dan.Username ∧
    ∃ fresh : VoteSession,
      sessionAt (startVote voting4 "cat" (some dan)).2 (inVc "cat").ChannelID
        = some (voting4.heap.length, fresh) ∧
      voting4.heap.length ≠ 0 ∧
      fresh.Votes = 0 ∧ fresh.Voters = [] ∧ fresh.UserToKick = dan.ID ∧
      fresh.ChannelID = (inVc "cat").ChannelID ∧ fresh.GuildID = (inVc "cat").GuildID ∧
      fresh.VotesNeeded
        = requiredVotes (countMembersInChannel voting4.voiceStates (inVc "cat").ChannelID) ∧
      (startVote voting4 "cat" (some dan)).2.heap[0]? = some bobSession ∧
      (startVote voting4 "cat" (some dan)).2.timers = voting4.timers ++ [voting4.heap.length] :=
  ⟨by decide, by decide, by decide, by decide, by decide,
    startVote_replaces_open_session voting4 "cat" dan (inVc "cat") (inVc "dan") 0 bobSession
      (by decide) (by decide) (by decide) (by decide) (by decide)⟩

/-! ## C10: bounds on the threshold -/

theorem countP_two_le {α : Type} (l : List α) (q : α → Bool) (a b : α) (hab : a ≠ b)
    (ha : a ∈ l) (hb : b ∈ l) (qa : q a = true) (qb : q b = true) : 2 ≤ l.countP q := by
  have hnd : [a, b].Nodup := by simp [hab]
  have hsub : [a, b] ⊆ l := by
    intro x hx
    simp only [List.mem_cons, List.mem_singleton, List.not_mem_nil, or_false] at hx
    rcases hx with rfl | rfl <;> assumption
  have := (List.subperm_of_subset hnd hsub).countP_le q
  simpa [List.countP_cons, qa, qb] using this

theorem countP_one_le {α : Type} (l : List α) (q : α → Bool) (a : α)
    (ha : a ∈ l) (qa : q a = true) : 1 ≤ l.countP q :=
  List.countP_pos_iff.mpr ⟨a, ha, qa⟩

/-- C10: for every accepted `startVote` (room size `N` within float64 integer
range) the room size is at least 1 and the new session has
`VotesNeeded <= N`; `VotesNeeded >= 1` holds as soon as `N >= 2` and fails for
`N = 1`, where it is 0. When the target is not the initiator, `N >= 2`, hence
`1 <= VotesNeeded`, and a session with that threshold and zero votes makes
`handleVoteCompletion` take the failing branch. -/
theorem startVote_threshold_bounds (st : State) (initiator : String) (target : User)
    (name : String) (iv : VoiceState)
    (hi : mapGet st.voiceStates initiator = some iv)
    (hstart : (startVote st initiator (some target)).1 = .VoteStarted name)
    (hN : countMembersInChannel st.voiceStates iv.ChannelID * 75 < 2 ^ 53) :
    1 ≤ countMembersInChannel st.voiceStates iv.ChannelID ∧
    ∃ p session,
      sessionAt (startVote st initiator (some target)).2 iv.ChannelID = some (p, session) ∧
      session.VotesNeeded ≤ (countMembersInChannel st.voiceStates iv.ChannelID : ℤ) ∧
      (countMembersInChannel st.voiceStates iv.ChannelID = 1 → session.VotesNeeded = 0) ∧
      (2 ≤ countMembersInChannel st.voiceStates iv.ChannelID → 1 ≤ session.VotesNeeded) ∧
      (target.ID ≠ initiator →
        2 ≤ countMembersInChannel st.voiceStates iv.ChannelID ∧ 1 ≤ session.VotesNeeded ∧
        ∀ (st2 : State) (later : VoteSession) (sent : SendResult) (timeoutErr : Bool),
          later.VotesNeeded = session.VotesNeeded → later.ChannelID = session.ChannelID →
          later.Votes = 0 →
          (handleVoteCompletion st2 later sent timeoutErr).calls
            = [ Call.ChannelMessageSend session.ChannelID failedMessage ]) := by
  obtain ⟨target', iv', tv, htarget, hi', hne, ht, hsame⟩ :=
    startVote_started_inv st initiator (some target) name hstart
  have htt : target' = target := (Option.some.inj htarget).symm
  subst htt
  have hiv : iv' = iv := by rw [hi] at hi'; exact (Option.some.inj hi').symm
  subst hiv
  have hmi := mapGet_some_mem _ _ _ hi
  have hmt := mapGet_some_mem _ _ _ ht
  have h1 : 1 ≤ countMembersInChannel st.voiceStates iv'.ChannelID := by
    rw [countMembersInChannel_eq_countP]
    exact countP_one_le _ _ _ hmi (by simp)
  have h2 : target'.ID ≠ initiator →
      2 ≤ countMembersInChannel st.voiceStates iv'.ChannelID := by
    intro hdiff
    rw [countMembersInChannel_eq_countP]
    refine countP_two_le _ _ (initiator, iv') (target'.ID, tv) ?_ hmi hmt (by simp)
      (by simp [hsame])
    intro heq
    exact hdiff (congrArg Prod.fst heq).symm
  rw [startVote_accepted st initiator target' iv' tv hi hne ht hsame]
  refine ⟨h1, st.heap.length, _, sessionAt_after_start st _ _ _, ?_, ?_, ?_, ?_⟩
  · show requiredVotes _ ≤ _
    rw [requiredVotes_eq_floor _ hN]; omega
  · intro h
    show requiredVotes _ = 0
    rw [requiredVotes_eq_floor _ hN, h]; rfl
  · intro h
    show 1 ≤ requiredVotes _
    rw [requiredVotes_eq_floor _ hN]; omega
  · intro hdiff
    have h2' := h2 hdiff
    have hv : 1 ≤ requiredVotes (countMembersInChannel st.voiceStates iv'.ChannelID) := by
      rw [requiredVotes_eq_floor _ hN]; omega
    refine ⟨h2', hv, ?_⟩
    intro st2 later sent timeoutErr hvn hch hz
    have hlt : ¬ later.Votes ≥ later.VotesNeeded := by
      rw [hz, hvn]
      show ¬ (0 ≥ requiredVotes _)
      omega
    unfold handleVoteCompletion
    rw [if_neg hlt, hch]

/-- Witness for C10: "ann" against "bob" in the four-member channel (threshold 3,
between 1 and 4), and "eve" against herself alone in her channel (room size 1,
threshold 0). -/
theorem startVote_threshold_bounds_witness :
    (mapGet room4.voiceStates "ann" = some (inVc "ann") ∧
      (startVote room4 "ann" (some bob)).1 = .VoteStarted "bob" ∧
      bob.ID ≠ "ann" ∧
      2 ≤ countMembersInChannel room4.voiceStates (inVc "ann").ChannelID ∧
      ∃ p session,
        sessionAt (startVote room4 "ann" (some bob)).2 (inVc "ann").ChannelID
          = some (p, session) ∧
        1 ≤ session.VotesNeeded ∧
        session.VotesNeeded ≤ (countMembersInChannel room4.voiceStates (inVc "ann").ChannelID : ℤ)) ∧
    (mapGet solo.voiceStates "eve" = some (inVc "eve") ∧
      (startVote solo "eve" (some eve)).1 = .VoteStarted "eve" ∧
      countMembersInChannel solo.voiceStates (inVc "eve").ChannelID = 1 ∧
      ∃ p session,
        sessionAt (startVote solo "eve" (some eve)).2 (inVc "eve").ChannelID
          = some (p, session) ∧
        session.VotesNeeded = 0) := by
  refine ⟨⟨by decide, by decide, by decide, by decide, ?_⟩, ⟨by decide, by decide, by decide, ?_⟩⟩
  · obtain ⟨_, p, session, hs, hle, _, _, hdiff⟩ :=
      startVote_threshold_bounds room4 "ann" bob "bob" (inVc "ann")
        (by decide) (by decide) (by decide)
    exact ⟨p, session, hs, (hdiff (by decide)).2.1, hle⟩
  · obtain ⟨_, p, session, hs, _, hone, _, _⟩ :=
      startVote_threshold_bounds solo "eve" eve "eve" (inVc "eve")
        (by decide) (by decide) (by decide)
    exact ⟨p, session, hs, hone (by decide)⟩

/-! ## C8: the vote counter never exceeds the voters -/

theorem startVote_heap (st : State) (initiator : String) (targetUser : Option User) :
    (startVote st initiator targetUser).2 = st ∨
    ∃ s : VoteSession, s.Votes = 0 ∧ s.Voters = [] ∧
      (startVote st initiator targetUser).2.heap = st.heap ++ [s] := by
  cases hi : mapGet st.voiceStates initiator with
  | none => left; simp [startVote, hi]
  | some iv =>
    by_cases hne : iv.ChannelID = ""
    · left; simp [startVote, hi, hne]
    · cases targetUser with
      | none => left; simp [startVote, hi, hne]
      | some target =>
        cases ht : mapGet st.voiceStates target.ID with
        | none => left; simp [startVote, hi, hne, ht]
        | some tv =>
          by_cases hsame : tv.ChannelID = iv.ChannelID
          · right
            rw [startVote_accepted st initiator target iv tv hi hne ht hsame]
            exact ⟨_, rfl, rfl, rfl⟩
          · left; simp [startVote, hi, hne, ht, hsame]

theorem handleVoteCompletion_heap (st st' : State) (session : VoteSession) (sent : SendResult)
    (timeoutErr : Bool)
    (h : (handleVoteCompletion st session sent timeoutErr).final = some st') :
    st'.heap = st.heap ∧ st'.voiceStates = st.voiceStates ∧ st'.timers = st.timers ∧
    st'.voteSessions = mapDelete st.voteSessions session.ChannelID := by
  unfold handleVoteCompletion at h
  by_cases hp : session.Votes ≥ session.VotesNeeded
  · rw [if_pos hp] at h
    cases hm : sent.msg with
    | none => simp [hm] at h
    | some m =>
      simp only [hm, Option.some.injEq] at h
      subst h
      exact ⟨rfl, rfl, rfl, rfl⟩
  · rw [if_neg hp] at h
    simp only [Option.some.injEq] at h
    subst h
    exact ⟨rfl, rfl, rfl, rfl⟩

/-- Whenever `handleVoteCompletion` runs to its end, the channel of the session
has no installed session afterwards. -/
theorem handleVoteCompletion_removes_entry (st st' : State) (session : VoteSession)
    (sent : SendResult) (timeoutErr : Bool)
    (h : (handleVoteCompletion st session sent timeoutErr).final = some st') :
    sessionAt st' session.ChannelID = none := by
  have hm := (handleVoteCompletion_heap st st' session sent timeoutErr h).2.2.2
  simp [sessionAt, hm, mapGet_mapDelete_self]

theorem recordVote_sound (s : VoteSession) (voterID : String) (voteValue : Bool)
    (hs : s.Sound) (hb : mapGet s.Voters voterID = none) :
    (recordVote s voterID voteValue).Sound := by
  obtain ⟨h0, hle, hnd⟩ := hs
  have hnot := mapGet_none_not_mem _ _ hb
  have hV : (recordVote s voterID voteValue).Voters = (voterID, true) :: s.Voters := by
    rw [recordVote_Voters]; simp [mapSet, filter_ne_of_not_mem _ _ hnot]
  refine ⟨?_, ?_, ?_⟩
  · rw [recordVote_Votes]; split_ifs <;> omega
  · rw [recordVote_Votes, hV]
    simp only [List.length_cons, Nat.cast_add, Nat.cast_one]
    split_ifs <;> omega
  · rw [hV]
    simp only [mapKeys, List.map_cons, List.nodup_cons]
    exact ⟨hnot, hnd⟩

/-- Every session object ever allocated satisfies the counter invariant. -/
theorem reachable_heap_sound (st : State) (h : Reachable st) :
    ∀ s ∈ st.heap, s.Sound := by
  induction h with
  | start => intro s hs; simp [State.empty] at hs
  | @step st st' _ hstep ih =>
    cases hstep with
    | presence vsu => exact ih
    | start initiator targetUser =>
      rcases startVote_heap st initiator targetUser with h | ⟨t, hv, hvs, h⟩
      · rw [h]; exact ih
      · intro s hs
        rw [h, List.mem_append, List.mem_singleton] at hs
        rcases hs with hs | rfl
        · exact ih s hs
        · exact ⟨by rw [hv], by rw [hv, hvs]; simp, by rw [hvs]; simp [mapKeys]⟩
    | vote voterID voteValue =>
      rcases addVote_cases st voterID voteValue with h | ⟨vs, p, t, _, _, ht, hb, h⟩
      · rw [h]; exact ih
      · intro s hs
        rw [h] at hs
        rcases List.mem_or_eq_of_mem_set hs with hs | rfl
        · exact ih s hs
        · exact recordVote_sound t voterID voteValue
            (ih t (List.getElem?_mem (sessionAt_some st _ p t ht).2)) hb
    | complete _ p session sent timeoutErr _ _ hfin =>
      have := (handleVoteCompletion_heap _ _ session sent timeoutErr hfin).1
      intro s hs
      rw [this] at hs
      exact ih s hs

/-- C8: in every state reachable from the empty maps by presence updates,
`startVote`, `addVote` and completed `handleVoteCompletion` runs, every session
installed in `voteSessions` has `0 <= Votes <= |Voters|`, and the keys of
`Voters` are pairwise distinct. -/
theorem reachable_votes_le_voters (st : State) (h : Reachable st) (c : String) (p : ℕ)
    (s : VoteSession) (hs : sessionAt st c = some (p, s)) :
    0 ≤ s.Votes ∧ s.Votes ≤ (s.Voters.length : ℤ) ∧ (mapKeys s.Voters).Nodup :=
  reachable_heap_sound st h s (List.getElem?_mem (sessionAt_some st c p s hs).2)

theorem reached2_session :
    sessionAt reached2 "vc"
      = some (0, { GuildID := "g", ChannelID := "vc", VotesNeeded := 1, Votes := 1,
                   UserToKick := "bob", Voters := [("ann", true)] }) := by
  have hc : countMembersInChannel joined2.voiceStates (inVc "ann").ChannelID = 2 := by decide
  have h1 : requiredVotes 2 = 1 := by rw [requiredVotes_eq_floor 2 (by norm_num)]; rfl
  unfold reached2
  rw [startVote_accepted joined2 "ann" bob (inVc "ann") (inVc "bob") (by decide) (by decide)
    (by decide) (by decide), hc, h1]
  decide

/-- Witness for C8: `reached2` is reached by two presence events, a `startVote`
and an `addVote`; its session for "vc" has one vote and one voter. -/
theorem reachable_votes_le_voters_witness :
    Reachable reached2 ∧
    sessionAt reached2 "vc"
      = some (0, { GuildID := "g", ChannelID := "vc", VotesNeeded := 1, Votes := 1,
                   UserToKick := "bob", Voters := [("ann", true)] }) ∧
    (0 : ℤ) ≤ 1 ∧ (1 : ℤ) ≤ ([("ann", true)] : GoMap Bool).length ∧
    (mapKeys ([("ann", true)] : GoMap Bool)).Nodup :=
  have hr : Reachable reached2 :=
    Reachable.step
      (Reachable.step
        (Reachable.step
          (Reachable.step Reachable.start (Step.presence _ (inVc "ann")))
          (Step.presence _ (inVc "bob")))
        (Step.start _ "ann" (some bob)))
      (Step.vote _ "ann" true)
  ⟨hr, reached2_session,
    reachable_votes_le_voters reached2 hr "vc" 0 _ reached2_session⟩

end Italy
